import Mathlib

/-!
Verification of the sfdoc publishing pipeline.

Shallow embedding of the reconciliation/publishing pipeline of the sfdoc
repository: `publish/tasks.py` (`_process_bundle`, `_publish_drafts`,
`process_queue`, `process_webhook`, `publish_drafts`) and
`publish/salesforce.py` (`Salesforce.process_article`, `Salesforce.archive`,
`Salesforce.publish_draft`).  Store interactions are modelled as explicit
effect traces; database records (Article, Image, Bundle, Webhook rows)
are modelled as Lean structures.  Helpers that live in files not included
here (the Django models, `html.py`, `amazon.py`) are modelled from the
spec and marked as such in their doc comments.
-/

namespace Sfdoc

/-- Python's str.lower, character by character (kernel-computable model of
the lower-casing used for slug and filename comparison). -/
def strLower (s : String) : String :=
  ⟨s.data.map Char.toLower⟩

/-- Python's str.startswith. -/
def strStartsWith (s pre : String) : Bool :=
  pre.data.isPrefixOf s.data

/-- Lexicographic comparison of character lists by code point (Python's
string ordering used by sorted). -/
def charListLe : List Char → List Char → Bool
  | [], _ => true
  | _ :: _, [] => false
  | c :: cs, d :: ds =>
    if c.toNat < d.toNat then true
    else if d.toNat < c.toNat then false
    else charListLe cs ds

/-- String order by code points. -/
def strLe (a b : String) : Bool :=
  charListLe a.data b.data

/-- `strLe` as a relation, for the sorting lemmas. -/
def strLeR (a b : String) : Prop :=
  strLe a b = true

instance : DecidableRel strLeR := fun a b => inferInstanceAs (Decidable (strLe a b = true))

theorem charListLe_total : ∀ a b, charListLe a b = true ∨ charListLe b a = true
  | [], _ => Or.inl rfl
  | _ :: _, [] => Or.inr rfl
  | c :: cs, d :: ds => by
    rcases Nat.lt_trichotomy c.toNat d.toNat with h | h | h
    · left
      simp [charListLe, h]
    · rcases charListLe_total cs ds with ih | ih
      · left
        simp [charListLe, h, Nat.lt_irrefl, ih]
      · right
        simp [charListLe, h, Nat.lt_irrefl, ih]
    · right
      simp [charListLe, h]

theorem charListLe_trans :
    ∀ a b c, charListLe a b = true → charListLe b c = true → charListLe a c = true
  | [], _, _, _, _ => rfl
  | _ :: _, [], _, hab, _ => by simp [charListLe] at hab
  | _ :: _, _ :: _, [], _, hbc => by simp [charListLe] at hbc
  | x :: xs, y :: ys, z :: zs, hab, hbc => by
    simp only [charListLe] at hab hbc ⊢
    by_cases hxy : x.toNat < y.toNat
    · by_cases hyz : y.toNat < z.toNat
      · simp [Nat.lt_trans hxy hyz]
      · by_cases hzy : z.toNat < y.toNat
        · simp [hyz, hzy] at hbc
        · have hyz' : y.toNat = z.toNat := by omega
          simp [hyz' ▸ hxy]
    · by_cases hyx : y.toNat < x.toNat
      · simp [hxy, hyx] at hab
      · have hxy' : x.toNat = y.toNat := by omega
        simp only [hxy', if_neg hyx] at hab
        simp only [if_neg (hxy' ▸ hyx : ¬ y.toNat < y.toNat)] at hab
        by_cases hyz : y.toNat < z.toNat
        · simp [hxy', hyz]
        · by_cases hzy : z.toNat < y.toNat
          · simp [hyz, hzy] at hbc
          · simp only [if_neg hyz, if_neg hzy] at hbc
            have := charListLe_trans xs ys zs hab hbc
            simp [hxy', hyz, hzy, this]

instance : IsTotal String strLeR :=
  ⟨fun a b => charListLe_total a.data b.data⟩

instance : IsTrans String strLeR :=
  ⟨fun a b c => charListLe_trans a.data b.data c.data⟩

/-- Lifecycle status of a Bundle (spec §4.5, `Bundle.STATUS_*`). -/
inductive BundleStatus
  | queued
  | processing
  | draftS
  | publishing
  | published
  | errorS
deriving DecidableEq, Repr

/-- Publish status of a Salesforce KnowledgeArticleVersion. -/
inductive PubStatus
  | draft
  | online
  | archived
deriving DecidableEq, Repr

/-- Decision status of an Article/Image change record
(`Article.STATUS_NEW/_CHANGED/_DELETED`). -/
inductive ChangeStatus
  | new
  | changed
  | deleted
deriving DecidableEq, Repr

/-- The compared fields of an article (`query_articles` selects Title, Summary,
the three visibility flags, body, author and author-override fields). -/
structure ArticleFields where
  title : String
  summary : String
  body : String
  isVisibleInCsp : Bool
  isVisibleInPkb : Bool
  isVisibleInPrm : Bool
  author : String
  authorOverride : String
deriving DecidableEq, Repr

/-- One KnowledgeArticleVersion record as returned by `query_articles`. -/
structure KavRecord where
  id : Nat
  kaId : Nat
  fields : ArticleFields
deriving DecidableEq, Repr

/-- An image file found in the bundle; `basename` stands for
`os.path.basename(path)`. -/
structure ImageFile where
  path : String
  basename : String
deriving DecidableEq, Repr

/-- One incoming HTML document after scrubbing: its source path, the declared
URL name and the mapped article fields, plus the image files it references. -/
structure Doc where
  path : String
  urlName : String
  fields : ArticleFields
  imageRefs : List ImageFile
deriving DecidableEq, Repr

/-- One row of `salesforce.get_articles('online')`. -/
structure LiveArticle where
  kaId : Nat
  kavId : Nat
  title : String
  urlName : String
deriving DecidableEq, Repr

/-- An ArticleChange record (the `Article` Django model row created by
`save_article` / `_process_bundle`). -/
structure ArticleChange where
  kaId : Nat
  kavId : Nat
  status : ChangeStatus
  urlName : String
deriving DecidableEq, Repr

/-- An ImageChange record (the `Image` Django model row). -/
structure ImageChange where
  filename : String
  status : ChangeStatus
deriving DecidableEq, Repr

/-- External store mutations and reads performed by the pipeline, in
program order. -/
inductive Effect
  | updateDraftKav (kavId : Nat)          -- `update_draft`: push fields to a draft
  | createArticleKav (kavId : Nat)        -- `create_article`: new draft article
  | createDraftCopy (kaId : Nat)          -- `create_draft`: draft copy of published
  | uploadImage (key : String)            -- S3 put
  | getKav (kavId : Nat)                  -- read of a draft body (`publish_draft`)
  | updateKavBody (kavId : Nat)           -- push rewritten body (`publish_draft`)
  | setPubStatus (kavId : Nat) (s : PubStatus)
  | copyImageToProduction (filename : String)
  | queryDraftOf (kaId : Nat)             -- read: draft lookup in `archive`
  | deleteKav (kavId : Nat)
  | deleteImageKey (key : String)
deriving DecidableEq, Repr

/-- Effects that mutate one of the two stores (reads excluded). -/
def Effect.isMutation : Effect → Bool
  | .getKav _ => false
  | .queryDraftOf _ => false
  | _ => true

/-- Error raised when `process_article` falls through every branch and
`save_article` reads the never-assigned locals `kav_id` / `status`
(a Python `NameError`, not a structured store error). -/
inductive PAErr
  | unboundLocal
deriving DecidableEq, Repr

/-- Result of one `process_article` call: the store mutations performed and
the ArticleChange record saved by `save_article` (if any). -/
structure PAResult where
  effects : List Effect
  saved : Option ArticleChange
deriving DecidableEq, Repr

/-- Modelled from the spec: `HTML.same_as_record` (html.py is not included) —
"compare the full set of mapped fields (body, summary, visibility flags,
author fields) between the freshly parsed document and the live published
record; any field mismatch ⇒ not identical". -/
def same_as_record (doc : Doc) (r : KavRecord) : Bool :=
  doc.fields == r.fields

/-- `Salesforce.process_article` (salesforce.py lines 175–211).
`draft` and `online` are the result lists of `query_articles` for the
document's URL name with publish status draft resp. online; `freshId` is the
id the store would assign to a newly created KnowledgeArticleVersion.
The branch structure mirrors the source: an exactly-one-draft branch, then
an elif chain on the online count, with no else — inputs that satisfy no
branch reach `save_article` with unbound locals. -/
def process_article (draft online : List KavRecord) (doc : Doc) (freshId : Nat) :
    Except PAErr PAResult :=
  match draft with
  | [d] =>
    -- draft exists, update fields
    let status := if online.length = 1 then ChangeStatus.changed else ChangeStatus.new
    .ok { effects := [.updateDraftKav d.id],
          saved := some { kaId := d.kaId, kavId := d.id, status := status,
                          urlName := doc.urlName } }
  | _ =>
    match online with
    | [] =>
      -- new draft, new article
      .ok { effects := [.createArticleKav freshId],
            saved := some { kaId := freshId, kavId := freshId,
                            status := ChangeStatus.new, urlName := doc.urlName } }
    | [r] =>
      -- new draft of existing article; check for changes in article fields
      if same_as_record doc r then
        .ok { effects := [], saved := none }
      else
        .ok { effects := [.createDraftCopy r.kaId, .updateDraftKav freshId],
              saved := some { kaId := r.kaId, kavId := freshId,
                              status := ChangeStatus.changed,
                              urlName := doc.urlName } }
    | _ :: _ :: _ =>
      .error .unboundLocal

/-- A Bundle with its owned change records (the `Bundle` Django model with its
`articles` / `images` relations; models.py in this snapshot predates these
models, so the record shape follows the spec's data model §3). -/
structure Bundle where
  status : BundleStatus
  articles : List ArticleChange
  images : List ImageChange
deriving DecidableEq, Repr

/-- `Salesforce.publish_draft` (salesforce.py lines 213–226): read the draft
body, rewrite links to production URLs, push the rewritten body (one `update`
call covering the body and text-index fields), then set publish status
online. -/
def publish_draft_effects (kavId : Nat) : List Effect :=
  [.getKav kavId, .updateKavBody kavId, .setPubStatus kavId .online]

/-- `Salesforce.archive` (salesforce.py lines 58–72): query for a draft of the
same KnowledgeArticle, delete it if it exists, then set the online version's
publish status to archived.  `draftOf` models the store's draft lookup by
KnowledgeArticleId. -/
def archive_effects (draftOf : Nat → Option Nat) (kaId kavId : Nat) : List Effect :=
  .queryDraftOf kaId ::
    (match draftOf kaId with
     | some draftId => [.deleteKav draftId, .setPubStatus kavId .archived]
     | none => [.setPubStatus kavId .archived])

/-- Is this change record NEW or CHANGED? -/
def isNC (s : ChangeStatus) : Bool :=
  s == .new || s == .changed

/-- `_publish_drafts` (tasks.py lines 177–210): the effect trace of one
publish run, in program order — publish NEW/CHANGED articles, copy
NEW/CHANGED images to production, archive DELETED articles, delete DELETED
images. -/
def publishEffects (b : Bundle) (draftOf : Nat → Option Nat) : List Effect :=
  ((b.articles.filter (fun a => isNC a.status)).flatMap
      (fun a => publish_draft_effects a.kavId))
    ++ ((b.images.filter (fun i => isNC i.status)).map
      (fun i => Effect.copyImageToProduction i.filename))
    ++ ((b.articles.filter (fun a => a.status == .deleted)).flatMap
      (fun a => archive_effects draftOf a.kaId a.kavId))
    ++ ((b.images.filter (fun i => i.status == .deleted)).map
      (fun i => Effect.deleteImageKey i.filename))

/-- The step group (§4.6) an effect of a publish trace belongs to:
1 = publish articles, 2 = copy images, 3 = archive articles,
4 = delete images.  Reads belong to the group that performs them. -/
def publishGroup : Effect → Nat
  | .getKav _ => 1
  | .updateKavBody _ => 1
  | .setPubStatus _ .online => 1
  | .copyImageToProduction _ => 2
  | .queryDraftOf _ => 3
  | .deleteKav _ => 3
  | .setPubStatus _ _ => 3
  | .deleteImageKey _ => 4
  | _ => 1

/-- Run an effect list against a failure oracle: effects execute in order
until the first failing one raises; the returned list is what actually
executed, the flag is whether the whole run succeeded. -/
def runEffects (fails : Effect → Bool) : List Effect → List Effect × Bool
  | [] => ([], true)
  | e :: rest =>
    if fails e then ([], false)
    else
      let (done, ok) := runEffects fails rest
      (e :: done, ok)

/-- Outcome of the `publish_drafts` job (tasks.py lines 283–301). -/
structure PublishRun where
  executed : List Effect
  finalStatus : BundleStatus
  errorRecorded : Bool
  queueTriggered : Bool
deriving DecidableEq, Repr

/-- The `publish_drafts` job (tasks.py lines 283–301): set status PUBLISHING,
run `_publish_drafts`; on any exception record the error on the bundle
(`set_error`, modelled from the spec: status → ERROR with the error text
recorded), re-trigger queue admission, and re-raise — the bundle is not set
to PUBLISHED and completed effects are not rolled back.  On success the
bundle becomes PUBLISHED and queue admission is triggered. -/
def publish_drafts_run (b : Bundle) (draftOf : Nat → Option Nat)
    (fails : Effect → Bool) : PublishRun :=
  let trace := publishEffects b draftOf
  let (done, ok) := runEffects fails trace
  if ok then
    { executed := done, finalStatus := .published,
      errorRecorded := false, queueTriggered := true }
  else
    { executed := done, finalStatus := .errorS,
      errorRecorded := true, queueTriggered := true }

/-- One row of the Bundle table as seen by queue admission. -/
structure QBundle where
  pk : Nat
  status : BundleStatus
  timeQueued : Nat
deriving DecidableEq, Repr

/-- Statuses that occupy the single active slot (PROCESSING, DRAFT,
PUBLISHING). -/
def isActiveStatus : BundleStatus → Bool
  | .processing => true
  | .draftS => true
  | .publishing => true
  | _ => false

/-- `Bundle.objects.filter(status=QUEUED).earliest('time_queued')`: the
queued row with the smallest queued timestamp (first wins on ties). -/
def minByTime : List QBundle → Option QBundle
  | [] => none
  | b :: rest =>
    match minByTime rest with
    | none => some b
    | some m => if b.timeQueued ≤ m.timeQueued then some b else some m

/-- `process_queue` (tasks.py lines 235–248): after the stale-draft image
sweep, dispatch nothing if any bundle is PROCESSING, DRAFT or PUBLISHING;
otherwise dispatch the earliest-queued QUEUED bundle (if any), returning its
pk. -/
def process_queue (bundles : List QBundle) : Option Nat :=
  if bundles.any (fun b => isActiveStatus b.status) then none
  else
    match minByTime (bundles.filter (fun b => b.status == .queued)) with
    | none => none
    | some b => some b.pk

/-- The state after an admission pass: the dispatched bundle (if any) starts
processing (`process_bundle` sets STATUS_PROCESSING on entry). -/
def applyDispatch (bundles : List QBundle) : List QBundle :=
  match process_queue bundles with
  | none => bundles
  | some pk =>
    bundles.map (fun b => if b.pk = pk then { b with status := .processing } else b)

/-- How many bundles currently occupy the active slot. -/
def activeCount : List QBundle → Nat
  | [] => 0
  | b :: rest => (if isActiveStatus b.status then 1 else 0) + activeCount rest

/-- The JSON fields `process_webhook` reads from the payload; `none` models a
missing key (Python dict access raises `KeyError`). -/
structure Payload where
  eventId : Option String           -- the event_id key of the payload
  publishResult : Option String     -- the publish-result key under event_data
  outputUuid : Option String        -- the output-uuid key under event_data
  resourceId : Option String        -- the resource_id key of the payload
deriving DecidableEq, Repr

/-- Admission status recorded on the Webhook record. -/
inductive WHStatus
  | accepted
  | rejected
deriving DecidableEq, Repr

/-- An uncaught exception escaping `process_webhook`. -/
inductive WebhookFatal
  | keyError
deriving DecidableEq, Repr

/-- Result of `process_webhook`: the admission status recorded on the Webhook
row, the status of the bundle for the carried source id afterwards, and
whether queue admission was triggered. -/
structure WebhookOutcome where
  whStatus : WHStatus
  bundleStatus : Option BundleStatus
  queueTriggered : Bool
deriving DecidableEq, Repr

/-- Modelled from the spec: `Bundle.is_complete` (the Bundle model is not in
this snapshot's models.py) — a bundle is complete iff it is in a terminal
state, PUBLISHED or ERROR. -/
def is_complete (s : BundleStatus) : Bool :=
  s == .published || s == .errorS

/-- `process_webhook` (tasks.py lines 251–280).  `existing` is the status of
the Bundle already stored for the payload's source id (`output-uuid`), or
`none` when `get_or_create` creates it.  Dict accesses are modelled by
`Option` matches in the evaluation order of the source: `data['event_id']`
first, then — only if it equals 'dita-ot-publish-complete', because `and`
short-circuits — `data['event_data']['publish-result']`; on the success path
`get_or_create`'s arguments force `output-uuid` and `resource_id`.  A missing
key is an uncaught `KeyError`.  `bundle.queue()` is modelled from the spec:
it sets the bundle's status to QUEUED. -/
def process_webhook (p : Payload) (existing : Option BundleStatus) :
    Except WebhookFatal WebhookOutcome :=
  match p.eventId with
  | none => .error .keyError
  | some e =>
    if e = "dita-ot-publish-complete" then
      match p.publishResult with
      | none => .error .keyError
      | some r =>
        if r = "success" then
          match p.outputUuid with
          | none => .error .keyError
          | some _ =>
            match p.resourceId with
            | none => .error .keyError
            | some _ =>
              match existing with
              | none =>
                -- bundle created: accepted, queued, admission triggered
                .ok { whStatus := .accepted, bundleStatus := some .queued,
                      queueTriggered := true }
              | some st =>
                if is_complete st then
                  .ok { whStatus := .accepted, bundleStatus := some .queued,
                        queueTriggered := true }
                else
                  -- rejected (already processing): bundle untouched
                  .ok { whStatus := .rejected, bundleStatus := some st,
                        queueTriggered := false }
        else
          .ok { whStatus := .rejected, bundleStatus := existing,
                queueTriggered := false }
    else
      .ok { whStatus := .rejected, bundleStatus := existing,
            queueTriggered := false }

/-- Add one (key, value) pair to a grouping map kept as an association list;
an existing key collects the value, a fresh key gets its own entry. -/
def insertEntry (k v : String) : List (String × List String) → List (String × List String)
  | [] => [(k, [v])]
  | (k', vs) :: rest =>
    if k' = k then (k', v :: vs) :: rest
    else (k', vs) :: insertEntry k v rest

/-- Build a grouping map (key → all contributing values) over a list, as
`_process_bundle` builds `url_map` and `image_map`. -/
def buildMap (f g : α → String) : List α → List (String × List String)
  | [] => []
  | x :: rest => insertEntry (f x) (g x) (buildMap f g rest)

/-- Look a key up in a grouping map (empty list when absent). -/
def lookupMap : List (String × List String) → String → List String
  | [], _ => []
  | (k', vs) :: rest, k => if k' = k then vs else lookupMap rest k

/-- Order on report entries: by key (Python iterates `sorted(map.keys())`). -/
def entryLe (a b : String × List String) : Prop :=
  strLeR a.1 b.1

instance : DecidableRel entryLe := fun a b => inferInstanceAs (Decidable (strLe a.1 b.1 = true))

instance : IsTotal (String × List String) entryLe := ⟨fun a b => IsTotal.total (r := strLeR) a.1 b.1⟩

instance : IsTrans (String × List String) entryLe := ⟨fun _ _ _ h h' => IsTrans.trans (r := strLeR) _ _ _ h h'⟩

/-- The duplicate report `_process_bundle` builds into its error message: every
key with more than one contributing source path, keys in sorted order, each
with its source paths sorted. -/
def collisionReport (m : List (String × List String)) : List (String × List String) :=
  List.insertionSort entryLe
    ((m.filter (fun kv => 1 < kv.2.length)).map
      (fun kv => (kv.1, List.insertionSort strLeR kv.2)))

/-- The abstract store state `_process_bundle` runs against: the Salesforce
query interface and the S3 listing. -/
structure Store where
  drafts : String → List KavRecord    -- query_articles(urlName, draft)
  onlines : String → List KavRecord   -- query_articles(urlName, online)
  onlineList : List LiveArticle       -- get_articles(online)
  s3Keys : List String                -- s3.iter_objects() keys
  draftDir : String                   -- settings.AWS_S3_DRAFT_DIR

/-- Why `_process_bundle` aborted (the `SfdocError`s it raises, plus the
unbound-local fall-through of `process_article`). -/
inductive BundleError
  | duplicateUrls (report : List (String × List String))
  | duplicateImages (report : List (String × List String))
  | unboundLocal
  | nothingChanged
deriving DecidableEq, Repr

/-- What one `_process_bundle` run produced: the store effects performed, the
change records created, the error raised (if any) and the bundle's resulting
status. -/
structure BundleOutcome where
  effects : List Effect
  articleChanges : List ArticleChange
  imageChanges : List ImageChange
  error : Option BundleError
  finalStatus : BundleStatus
deriving DecidableEq, Repr

/-- Accumulated result of the article-processing loop. -/
structure DocsResult where
  effects : List Effect
  arts : List ArticleChange
  ok : Bool
deriving DecidableEq, Repr

/-- The per-document loop of `_process_bundle` (tasks.py lines 133–142): each
document goes through `process_article`; an exception aborts the loop,
keeping the effects and records accumulated so far.  `idx` numbers the fresh
ids handed out for created drafts. -/
def processDocs (store : Store) : List Doc → Nat → DocsResult
  | [], _ => { effects := [], arts := [], ok := true }
  | d :: rest, idx =>
    match process_article (store.drafts d.urlName) (store.onlines d.urlName) d idx with
    | .error _ => { effects := [], arts := [], ok := false }
    | .ok r =>
      let tail := processDocs store rest (idx + 1)
      { effects := r.effects ++ tail.effects,
        arts := r.saved.toList ++ tail.arts,
        ok := tail.ok }

/-- Modelled from the spec: `S3.process_image` (amazon.py is not included) —
an incoming image basename not present in the live production key set
(excluding the draft namespace, case-insensitive) is NEW, one present is
CHANGED and always re-uploaded; either way the bytes are staged under the
draft-prefix key and an ImageChange record is created with the basename as
filename. -/
def process_image (store : Store) (img : ImageFile) : Effect × ImageChange :=
  let prodKeys := (store.s3Keys.filter (fun k => !strStartsWith k store.draftDir)).map
    (fun k => strLower k)
  let status :=
    if prodKeys.contains (strLower img.basename) then ChangeStatus.changed
    else ChangeStatus.new
  (.uploadImage (store.draftDir ++ img.basename), { filename := img.basename, status := status })

/-- The DELETED article records `_process_bundle` creates (tasks.py lines
104–118): one per live online article whose lower-cased URL name is not a key
of the url map. -/
def mkDeletedChange (a : LiveArticle) : ArticleChange :=
  { kaId := a.kaId, kavId := a.kavId, status := .deleted, urlName := a.urlName }

def deletedArticleRecords (onlineList : List LiveArticle) (urlKeys : List String) :
    List ArticleChange :=
  (onlineList.filter (fun a => !urlKeys.contains (strLower a.urlName))).map
    mkDeletedChange

/-- The url map of a bundle: lower-cased URL name → contributing paths. -/
def urlMapOf (docs : List Doc) : List (String × List String) :=
  buildMap (fun d => strLower d.urlName) (fun d => d.path) docs

/-- The image map of a bundle: lower-cased basename → contributing paths. -/
def imgMapOf (imgs : List ImageFile) : List (String × List String) :=
  buildMap (fun i => strLower i.basename) (fun i => i.path) imgs

/-- Does some URL name (case-insensitive) have two or more source files? -/
def hasUrlDup (docs : List Doc) : Bool :=
  (urlMapOf docs).any (fun kv => 1 < kv.2.length)

/-- Does some image basename (case-insensitive) have two or more sources? -/
def hasImgDup (imgs : List ImageFile) : Bool :=
  (imgMapOf imgs).any (fun kv => 1 < kv.2.length)

/-- The DELETED image records `_process_bundle` creates (tasks.py lines
119–129): one per S3 key outside the draft namespace whose lower-cased key is
not a key of the image map. -/
def deletedImageRecords (store : Store) (imgs : List ImageFile) : List ImageChange :=
  (store.s3Keys.filter (fun k =>
      !strStartsWith k store.draftDir
        && !((imgMapOf imgs).map (fun kv => kv.1)).contains (strLower k))).map
    (fun k => { filename := k, status := .deleted })

/-- All ArticleChange records of one processing run: the DELETED sweep plus
what the per-document loop saved. -/
def stagedArticleChanges (store : Store) (docs : List Doc) : List ArticleChange :=
  deletedArticleRecords store.onlineList ((urlMapOf docs).map (fun kv => kv.1))
    ++ (processDocs store docs 0).arts

/-- All ImageChange records of one processing run: the DELETED sweep plus one
NEW/CHANGED record per incoming image. -/
def stagedImageChanges (store : Store) (imgs : List ImageFile) :
    List ImageChange :=
  deletedImageRecords store imgs ++ (imgs.map (process_image store)).map (fun r => r.2)

/-- The unchanged-image preview uploads (tasks.py lines 151–168): images
referenced by NEW/CHANGED articles with no ImageChange record of their own
are uploaded under the draft prefix. -/
def unchangedImageUploads (store : Store) (docs : List Doc) (imgs : List ImageFile) :
    List Effect :=
  let imgFilenames := (stagedImageChanges store imgs).map (fun i => i.filename)
  (((((stagedArticleChanges store docs).filter (fun a => isNC a.status)).flatMap
      (fun a => (docs.filter (fun d => d.urlName == a.urlName)).flatMap
        (fun d => d.imageRefs))).filter
    (fun ref => !imgFilenames.contains ref.basename)).eraseDups).map
    (fun ref => Effect.uploadImage (store.draftDir ++ ref.basename))

/-- The full effect trace of a successful staging pass: the per-document
store calls, the per-image staging uploads and the unchanged-image preview
uploads. -/
def stagingEffects (store : Store) (docs : List Doc) (imgs : List ImageFile) :
    List Effect :=
  (processDocs store docs 0).effects ++ (imgs.map (process_image store)).map (fun r => r.1)
    ++ unchangedImageUploads store docs imgs

/-- `_process_bundle` (tasks.py lines 26–174), starting after extraction and
scrubbing: duplicate URL-name check, duplicate image-basename check, DELETED
article and image records, the per-document `process_article` loop, the
per-image `process_image` loop, the unchanged-image draft uploads, and the
nothing-changed check; success leaves the bundle in DRAFT. -/
def processBundle (store : Store) (docs : List Doc) (imgs : List ImageFile) :
    BundleOutcome :=
  if hasUrlDup docs then
    { effects := [], articleChanges := [], imageChanges := [],
      error := some (.duplicateUrls (collisionReport (urlMapOf docs))),
      finalStatus := .processing }
  else if hasImgDup imgs then
    { effects := [], articleChanges := [], imageChanges := [],
      error := some (.duplicateImages (collisionReport (imgMapOf imgs))),
      finalStatus := .processing }
  else if !(processDocs store docs 0).ok then
    { effects := (processDocs store docs 0).effects,
      articleChanges := stagedArticleChanges store docs,
      imageChanges := deletedImageRecords store imgs,
      error := some .unboundLocal,
      finalStatus := .processing }
  else if (stagedArticleChanges store docs).isEmpty
      && (stagedImageChanges store imgs).isEmpty then
    { effects := stagingEffects store docs imgs,
      articleChanges := stagedArticleChanges store docs,
      imageChanges := stagedImageChanges store imgs,
      error := some .nothingChanged, finalStatus := .processing }
  else
    { effects := stagingEffects store docs imgs,
      articleChanges := stagedArticleChanges store docs,
      imageChanges := stagedImageChanges store imgs,
      error := none, finalStatus := .draftS }

/-! ### Helper lemmas -/

theorem mem_keys_insertEntry (k v k' : String) (m : List (String × List String)) :
    k' ∈ (insertEntry k v m).map Prod.fst ↔ k' = k ∨ k' ∈ m.map Prod.fst := by
  induction m with
  | nil => simp [insertEntry]
  | cons kv rest ih =>
    obtain ⟨k₀, vs⟩ := kv
    by_cases h : k₀ = k
    · subst h
      simp [insertEntry]
    · simp [insertEntry, h, ih]
      tauto

theorem mem_keys_buildMap {α : Type} (f g : α → String) (l : List α) (k : String) :
    k ∈ (buildMap f g l).map Prod.fst ↔ ∃ x ∈ l, f x = k := by
  induction l with
  | nil => simp [buildMap]
  | cons x rest ih =>
    simp only [buildMap, mem_keys_insertEntry, ih, List.mem_cons]
    constructor
    · rintro (rfl | ⟨y, hy, rfl⟩)
      · exact ⟨x, by simp⟩
      · exact ⟨y, by simp [hy]⟩
    · rintro ⟨y, hy, rfl⟩
      rcases hy with rfl | hy
      · exact Or.inl rfl
      · exact Or.inr ⟨y, hy, rfl⟩

theorem lookupMap_insertEntry (k v k' : String) (m : List (String × List String)) :
    lookupMap (insertEntry k v m) k' =
      if k = k' then v :: lookupMap m k' else lookupMap m k' := by
  induction m with
  | nil =>
    simp only [insertEntry, lookupMap]
  | cons kv rest ih =>
    obtain ⟨k₀, vs⟩ := kv
    by_cases h : k₀ = k
    · subst h
      simp only [insertEntry, if_pos rfl, lookupMap]
      by_cases h' : k₀ = k'
      · simp [h']
      · simp [h']
    · simp only [insertEntry, if_neg h, lookupMap]
      by_cases h' : k₀ = k'
      · have : ¬ k = k' := fun hk => h (hk ▸ h' ▸ rfl)
        simp [h', this]
      · simp [h', ih]

theorem lookupMap_buildMap {α : Type} (f g : α → String) (l : List α) (k : String) :
    lookupMap (buildMap f g l) k = (l.filter (fun x => f x == k)).map g := by
  induction l with
  | nil => simp [buildMap, lookupMap]
  | cons x rest ih =>
    simp only [buildMap, lookupMap_insertEntry, ih]
    by_cases h : f x = k
    · simp [h, List.filter_cons]
    · simp [List.filter_cons, h]

theorem mem_of_lookupMap_ne_nil (m : List (String × List String)) (k : String)
    (h : lookupMap m k ≠ []) : (k, lookupMap m k) ∈ m := by
  induction m with
  | nil => simp [lookupMap] at h
  | cons kv rest ih =>
    obtain ⟨k₀, vs⟩ := kv
    by_cases hk : k₀ = k
    · subst hk
      simp only [lookupMap, if_pos rfl] at h ⊢
      simp [lookupMap]
    · simp only [lookupMap, if_neg hk] at h ⊢
      exact List.mem_cons_of_mem _ (ih h)

/-! ### Claim theorems -/

/-- C1: the Diff Engine assigns decisions exactly by the five-row table —
draft+online ⇒ CHANGED update of the draft; draft only ⇒ NEW update of the
draft; no draft, online and identical ⇒ no record and no store mutation;
no draft, online and different ⇒ CHANGED via a fresh draft copy of the
published article; neither ⇒ NEW created draft — and every live online
article whose slug (case-insensitively) matches no incoming document gets a
DELETED record. -/
theorem c1_diff_decision_table :
    (∀ (d r : KavRecord) (doc : Doc) (freshId : Nat),
      process_article [d] [r] doc freshId =
        .ok { effects := [.updateDraftKav d.id],
              saved := some { kaId := d.kaId, kavId := d.id,
                              status := .changed, urlName := doc.urlName } })
  ∧ (∀ (d : KavRecord) (doc : Doc) (freshId : Nat),
      process_article [d] [] doc freshId =
        .ok { effects := [.updateDraftKav d.id],
              saved := some { kaId := d.kaId, kavId := d.id,
                              status := .new, urlName := doc.urlName } })
  ∧ (∀ (r : KavRecord) (doc : Doc) (freshId : Nat), doc.fields = r.fields →
      process_article [] [r] doc freshId = .ok { effects := [], saved := none })
  ∧ (∀ (r : KavRecord) (doc : Doc) (freshId : Nat), doc.fields ≠ r.fields →
      process_article [] [r] doc freshId =
        .ok { effects := [.createDraftCopy r.kaId, .updateDraftKav freshId],
              saved := some { kaId := r.kaId, kavId := freshId,
                              status := .changed, urlName := doc.urlName } })
  ∧ (∀ (doc : Doc) (freshId : Nat),
      process_article [] [] doc freshId =
        .ok { effects := [.createArticleKav freshId],
              saved := some { kaId := freshId, kavId := freshId,
                              status := .new, urlName := doc.urlName } })
  ∧ (∀ (store : Store) (docs : List Doc) (imgs : List ImageFile) (a : LiveArticle),
      a ∈ store.onlineList →
      (∀ d ∈ docs, strLower d.urlName ≠ strLower a.urlName) →
      hasUrlDup docs = false →
      hasImgDup imgs = false →
      mkDeletedChange a ∈ (processBundle store docs imgs).articleChanges) := by
  refine ⟨?_, ?_, ?_, ?_, ?_, ?_⟩
  · intro d r doc freshId
    rfl
  · intro d doc freshId
    rfl
  · intro r doc freshId h
    simp [process_article, same_as_record, h]
  · intro r doc freshId h
    simp [process_article, same_as_record, h]
  · intro doc freshId
    rfl
  · intro store docs imgs a ha hslug hud hid
    have hmem : strLower a.urlName ∉ (urlMapOf docs).map Prod.fst := by
      rw [urlMapOf, mem_keys_buildMap]
      rintro ⟨d, hd, heq⟩
      exact hslug d hd heq
    have hc : ((urlMapOf docs).map Prod.fst).contains (strLower a.urlName) = false := by
      cases hcc : ((urlMapOf docs).map Prod.fst).contains (strLower a.urlName) with
      | false => rfl
      | true => exact absurd (List.elem_iff.mp hcc) hmem
    have hdel : mkDeletedChange a
        ∈ deletedArticleRecords store.onlineList ((urlMapOf docs).map Prod.fst) := by
      rw [deletedArticleRecords]
      exact List.mem_map.mpr ⟨a, List.mem_filter.mpr ⟨ha, by rw [hc]; rfl⟩, rfl⟩
    simp only [processBundle, hud, hid, Bool.false_eq_true, if_false]
    by_cases hok : (processDocs store docs 0).ok
    · simp only [hok, Bool.not_true, Bool.false_eq_true, if_false]
      split
      · exact List.mem_append_left _ hdel
      · exact List.mem_append_left _ hdel
    · simp only [Bool.not_eq_true] at hok
      simp only [hok, Bool.not_false, if_true]
      exact List.mem_append_left _ hdel

/-- C1 witness: the decision table evaluated at concrete records — identical
content (row 3) and differing content (row 4) both behave as stated. -/
theorem c1_witness :
    (let f : ArticleFields := ⟨"t", "s", "b", true, true, true, "a", "ao"⟩
     let g : ArticleFields := ⟨"t", "s", "b2", true, true, true, "a", "ao"⟩
     let doc : Doc := ⟨"x.html", "slug", f, []⟩
     process_article [] [⟨4, 9, f⟩] doc 7 = .ok { effects := [], saved := none }
     ∧ process_article [] [⟨4, 9, g⟩] doc 7 =
         .ok { effects := [.createDraftCopy 9, .updateDraftKav 7],
               saved := some { kaId := 9, kavId := 7,
                               status := .changed, urlName := "slug" } }
     ∧ mkDeletedChange ⟨3, 5, "Old page", "Old"⟩
        ∈ (processBundle ⟨fun _ => [], fun _ => [], [⟨3, 5, "Old page", "Old"⟩], [], "draft/"⟩
            [⟨"x.html", "slug", f, []⟩] []).articleChanges) := by
  refine ⟨c1_diff_decision_table.2.2.1 _ _ _ (by decide), ?_, ?_⟩
  · exact c1_diff_decision_table.2.2.2.1 _ _ _ (by decide)
  · exact c1_diff_decision_table.2.2.2.2.2 _ _ _ _ (by decide) (by decide)
      (by decide) (by decide)

/-- C10: `process_article` is total only under the at-most-one-draft /
at-most-one-online precondition.  With no draft and two online records (and
likewise with two drafts and two online records) no branch assigns the
locals, and the final `save_article` call fails on unbound locals; every
shape within the precondition returns a result. -/
theorem c10_unbound_locals :
    (∀ (r₁ r₂ : KavRecord) (rs : List KavRecord) (doc : Doc) (freshId : Nat),
      process_article [] (r₁ :: r₂ :: rs) doc freshId = .error .unboundLocal)
  ∧ (∀ (d₁ d₂ : KavRecord) (ds : List KavRecord) (r₁ r₂ : KavRecord)
      (rs : List KavRecord) (doc : Doc) (freshId : Nat),
      process_article (d₁ :: d₂ :: ds) (r₁ :: r₂ :: rs) doc freshId =
        .error .unboundLocal)
  ∧ (∀ (d : List KavRecord) (r : List KavRecord) (doc : Doc) (freshId : Nat),
      d.length ≤ 1 → r.length ≤ 1 →
      (process_article d r doc freshId).isOk = true) := by
  refine ⟨fun _ _ _ _ _ => rfl, fun _ _ _ _ _ _ _ _ => rfl, ?_⟩
  intro d r doc freshId hd hr
  match d, r with
  | [], [] => rfl
  | [], [r₀] =>
    simp only [process_article]
    split <;> rfl
  | [d₀], [] => rfl
  | [d₀], [r₀] => rfl
  | _ :: _ :: _, _ => simp at hd
  | _, _ :: _ :: _ => simp at hr

/-- C10 witness: concrete inputs — zero drafts with two online records fall
through to the unbound-locals failure, while shapes inside the precondition
succeed. -/
theorem c10_witness :
    (let f : ArticleFields := ⟨"t", "s", "b", true, true, true, "a", "ao"⟩
     let doc : Doc := ⟨"x.html", "slug", f, []⟩
     process_article [] [⟨1, 2, f⟩, ⟨3, 4, f⟩] doc 0 = .error .unboundLocal
     ∧ ([] : List KavRecord).length ≤ 1 ∧ [(⟨1, 2, f⟩ : KavRecord)].length ≤ 1
     ∧ (process_article [] [⟨1, 2, f⟩] doc 0).isOk = true) :=
  ⟨c10_unbound_locals.1 _ _ _ _ _, by decide, by decide,
   c10_unbound_locals.2.2 [] [⟨1, 2, ⟨"t", "s", "b", true, true, true, "a", "ao"⟩⟩]
     ⟨"x.html", "slug", ⟨"t", "s", "b", true, true, true, "a", "ao"⟩, []⟩ 0
     (by decide) (by decide)⟩

theorem pairwise_le_of_const {l : List Nat} {c : Nat} (h : ∀ x ∈ l, x = c) :
    l.Pairwise (· ≤ ·) := by
  induction l with
  | nil => exact List.Pairwise.nil
  | cons x rest ih =>
    refine List.Pairwise.cons ?_ (ih fun y hy => h y (List.mem_cons_of_mem _ hy))
    intro y hy
    rw [h x (List.mem_cons_self _ _), h y (List.mem_cons_of_mem _ hy)]

theorem publishGroup_of_mem_articles (b : Bundle) (e : Effect)
    (he : e ∈ (b.articles.filter (fun a => isNC a.status)).flatMap
      (fun a => publish_draft_effects a.kavId)) : publishGroup e = 1 := by
  rw [List.mem_flatMap] at he
  obtain ⟨a, _, hmem⟩ := he
  simp only [publish_draft_effects, List.mem_cons, List.mem_singleton] at hmem
  rcases hmem with rfl | rfl | rfl | h
  · rfl
  · rfl
  · rfl
  · simp at h

theorem publishGroup_of_mem_images (b : Bundle) (e : Effect)
    (he : e ∈ (b.images.filter (fun i => isNC i.status)).map
      (fun i => Effect.copyImageToProduction i.filename)) : publishGroup e = 2 := by
  rw [List.mem_map] at he
  obtain ⟨i, _, rfl⟩ := he
  rfl

theorem publishGroup_of_mem_archives (b : Bundle) (draftOf : Nat → Option Nat)
    (e : Effect)
    (he : e ∈ (b.articles.filter (fun a => a.status == .deleted)).flatMap
      (fun a => archive_effects draftOf a.kaId a.kavId)) : publishGroup e = 3 := by
  rw [List.mem_flatMap] at he
  obtain ⟨a, _, hmem⟩ := he
  simp only [archive_effects, List.mem_cons] at hmem
  rcases hmem with rfl | h
  · rfl
  · cases hda : draftOf a.kaId with
    | some draftId =>
      rw [hda] at h
      simp only [List.mem_cons, List.not_mem_nil, or_false] at h
      rcases h with rfl | rfl <;> rfl
    | none =>
      rw [hda] at h
      simp only [List.mem_cons, List.not_mem_nil, or_false] at h
      subst h
      rfl

theorem publishGroup_of_mem_deletes (b : Bundle) (e : Effect)
    (he : e ∈ (b.images.filter (fun i => i.status == .deleted)).map
      (fun i => Effect.deleteImageKey i.filename)) : publishGroup e = 4 := by
  rw [List.mem_map] at he
  obtain ⟨i, _, rfl⟩ := he
  rfl

/-- C2: the publish run's effect trace is exactly the four fixed groups in
order — per NEW/CHANGED article a read of the draft body, the push of the
link-rewritten body and the flip to online; then the production copies of
NEW/CHANGED images; then per DELETED article the draft lookup, the deletion
of an existing draft copy and the flip to archived; then the deletions of
DELETED images' production objects — and the group index is monotone along
the whole trace, so no mutation of a later group precedes one of an earlier
group. -/
theorem c2_publish_order (b : Bundle) (draftOf : Nat → Option Nat) :
    publishEffects b draftOf =
      ((b.articles.filter (fun a => isNC a.status)).flatMap
          (fun a => [.getKav a.kavId, .updateKavBody a.kavId,
                     .setPubStatus a.kavId .online]))
        ++ ((b.images.filter (fun i => isNC i.status)).map
          (fun i => Effect.copyImageToProduction i.filename))
        ++ ((b.articles.filter (fun a => a.status == .deleted)).flatMap
          (fun a => Effect.queryDraftOf a.kaId ::
            (match draftOf a.kaId with
             | some draftId => [.deleteKav draftId, .setPubStatus a.kavId .archived]
             | none => [.setPubStatus a.kavId .archived])))
        ++ ((b.images.filter (fun i => i.status == .deleted)).map
          (fun i => Effect.deleteImageKey i.filename))
    ∧ ((publishEffects b draftOf).map publishGroup).Pairwise (· ≤ ·) := by
  constructor
  · rfl
  · rw [publishEffects]
    rw [List.map_append, List.map_append, List.map_append]
    have h1 : ∀ x ∈ ((b.articles.filter (fun a => isNC a.status)).flatMap
        (fun a => publish_draft_effects a.kavId)).map publishGroup, x = 1 := by
      intro x hx
      rw [List.mem_map] at hx
      obtain ⟨e, he, rfl⟩ := hx
      exact publishGroup_of_mem_articles b e he
    have h2 : ∀ x ∈ ((b.images.filter (fun i => isNC i.status)).map
        (fun i => Effect.copyImageToProduction i.filename)).map publishGroup, x = 2 := by
      intro x hx
      rw [List.mem_map] at hx
      obtain ⟨e, he, rfl⟩ := hx
      exact publishGroup_of_mem_images b e he
    have h3 : ∀ x ∈ ((b.articles.filter (fun a => a.status == .deleted)).flatMap
        (fun a => archive_effects draftOf a.kaId a.kavId)).map publishGroup, x = 3 := by
      intro x hx
      rw [List.mem_map] at hx
      obtain ⟨e, he, rfl⟩ := hx
      exact publishGroup_of_mem_archives b draftOf e he
    have h4 : ∀ x ∈ ((b.images.filter (fun i => i.status == .deleted)).map
        (fun i => Effect.deleteImageKey i.filename)).map publishGroup, x = 4 := by
      intro x hx
      rw [List.mem_map] at hx
      obtain ⟨e, he, rfl⟩ := hx
      exact publishGroup_of_mem_deletes b e he
    rw [List.pairwise_append, List.pairwise_append, List.pairwise_append]
    refine ⟨⟨⟨pairwise_le_of_const h1, pairwise_le_of_const h2, ?_⟩,
      pairwise_le_of_const h3, ?_⟩, pairwise_le_of_const h4, ?_⟩
    · intro x hx y hy
      rw [h1 x hx, h2 y hy]
      omega
    · intro x hx y hy
      rw [List.mem_append] at hx
      rw [h3 y hy]
      rcases hx with hx | hx
      · rw [h1 x hx]
        omega
      · rw [h2 x hx]
        omega
    · intro x hx y hy
      rw [List.mem_append, List.mem_append] at hx
      rw [h4 y hy]
      rcases hx with (hx | hx) | hx
      · rw [h1 x hx]
        omega
      · rw [h2 x hx]
        omega
      · rw [h3 x hx]
        omega

theorem runEffects_eq (fails : Effect → Bool) (l : List Effect) :
    runEffects fails l = (l.takeWhile (fun e => !fails e), l.all (fun e => !fails e)) := by
  induction l with
  | nil => rfl
  | cons e rest ih =>
    by_cases h : fails e
    · simp [runEffects, h, List.takeWhile_cons, List.all_cons]
    · simp only [Bool.not_eq_true] at h
      simp [runEffects, h, List.takeWhile_cons, List.all_cons, ih]

/-- C5: if any step of a bundle's publish run fails, the remaining steps are
skipped (what executed is exactly the prefix before the first failing
effect), the bundle ends in ERROR — not PUBLISHED — with the error recorded,
queue admission is re-invoked, and the executed prefix stays in place (it is
a prefix of the planned trace; no compensating effects are emitted). -/
theorem c5_publish_failure (b : Bundle) (draftOf : Nat → Option Nat)
    (fails : Effect → Bool)
    (hf : ∃ e ∈ publishEffects b draftOf, fails e = true) :
    (publish_drafts_run b draftOf fails).finalStatus = .errorS
    ∧ (publish_drafts_run b draftOf fails).finalStatus ≠ .published
    ∧ (publish_drafts_run b draftOf fails).errorRecorded = true
    ∧ (publish_drafts_run b draftOf fails).queueTriggered = true
    ∧ (publish_drafts_run b draftOf fails).executed =
        (publishEffects b draftOf).takeWhile (fun e => !fails e)
    ∧ (publish_drafts_run b draftOf fails).executed <+: publishEffects b draftOf := by
  have hall : (publishEffects b draftOf).all (fun e => !fails e) = false := by
    obtain ⟨e, he, hfe⟩ := hf
    rw [← Bool.not_eq_true, List.all_eq_true]
    intro hcon
    have := hcon e he
    rw [hfe] at this
    simp at this
  have hrun : publish_drafts_run b draftOf fails =
      { executed := (publishEffects b draftOf).takeWhile (fun e => !fails e),
        finalStatus := .errorS, errorRecorded := true, queueTriggered := true } := by
    rw [publish_drafts_run, runEffects_eq, hall]
    rfl
  rw [hrun]
  refine ⟨rfl, by simp, rfl, rfl, rfl, ?_⟩
  exact List.takeWhile_prefix _

/-- C5 witness: a concrete bundle whose single publish step fails — the run
ends in ERROR with nothing executed. -/
theorem c5_witness :
    (let b : Bundle := ⟨.draftS, [⟨1, 2, .new, "slug"⟩], []⟩
     let fails : Effect → Bool := fun e => e == .updateKavBody 2
     (∃ e ∈ publishEffects b (fun _ => none), fails e = true)
     ∧ (publish_drafts_run b (fun _ => none) fails).finalStatus = .errorS
     ∧ (publish_drafts_run b (fun _ => none) fails).executed = [.getKav 2]) := by
  refine ⟨⟨.updateKavBody 2, by decide, by decide⟩, ?_, by decide⟩
  exact (c5_publish_failure _ _ _ ⟨.updateKavBody 2, by decide, by decide⟩).1

/-- C7 counterexample: a bundle already fully PUBLISHED (its ArticleChange
rows still carry NEW, as publishing never rewrites them) whose re-run
performs store mutations again — the claim that a re-run performs no further
store mutations is false. -/
theorem c7_counterexample :
    (let b : Bundle := ⟨.published, [⟨1, 2, .new, "slug"⟩], []⟩
     b.status = .published
     ∧ ((publishEffects b (fun _ => none)).any Effect.isMutation) = true
     ∧ publishEffects b (fun _ => none) =
         [.getKav 2, .updateKavBody 2, .setPubStatus 2 .online]) := by
  exact ⟨rfl, by decide, by decide⟩

/-- C7 amended: the publish step sequence never consults the bundle's
lifecycle status, so re-running it on a PUBLISHED bundle replays exactly the
trace of the original run — the same mutations in the same fixed order, not
zero mutations; the trace is non-empty (and contains mutations) whenever the
bundle has any NEW/CHANGED article record. -/
theorem c7_republish_replays_trace (b : Bundle) (draftOf : Nat → Option Nat) :
    publishEffects { b with status := .published } draftOf = publishEffects b draftOf
    ∧ (b.articles.any (fun a => isNC a.status) = true →
        (publishEffects { b with status := .published } draftOf).any
          Effect.isMutation = true) := by
  refine ⟨rfl, ?_⟩
  intro h
  rw [List.any_eq_true] at h
  obtain ⟨a, ha, hnc⟩ := h
  rw [List.any_eq_true]
  refine ⟨.updateKavBody a.kavId, ?_, rfl⟩
  show Effect.updateKavBody a.kavId ∈ publishEffects b draftOf
  rw [publishEffects]
  refine List.mem_append_left _ (List.mem_append_left _ (List.mem_append_left _ ?_))
  rw [List.mem_flatMap]
  exact ⟨a, List.mem_filter.mpr ⟨ha, hnc⟩, by simp [publish_draft_effects]⟩

/-- C7 amended witness: a concrete PUBLISHED bundle with one NEW article —
the replayed trace equals the original and performs mutations. -/
theorem c7_witness :
    (let b : Bundle := ⟨.published, [⟨1, 2, .new, "slug"⟩], []⟩
     publishEffects { b with status := .published } (fun _ => none) =
       publishEffects b (fun _ => none)
     ∧ (publishEffects { b with status := .published } (fun _ => none)).any
         Effect.isMutation = true) :=
  ⟨(c7_republish_replays_trace ⟨.published, [⟨1, 2, .new, "slug"⟩], []⟩ (fun _ => none)).1,
   (c7_republish_replays_trace ⟨.published, [⟨1, 2, .new, "slug"⟩], []⟩ (fun _ => none)).2
     (by decide)⟩

theorem minByTime_eq_none : ∀ l : List QBundle, minByTime l = none → l = []
  | [], _ => rfl
  | b :: rest, h => by
    cases hr : minByTime rest with
    | none => simp [minByTime, hr] at h
    | some m' =>
      simp only [minByTime, hr] at h
      split at h <;> simp at h

theorem minByTime_mem : ∀ (l : List QBundle) (m : QBundle), minByTime l = some m → m ∈ l
  | [], _, h => by simp [minByTime] at h
  | b :: rest, m, h => by
    cases hr : minByTime rest with
    | none =>
      simp only [minByTime, hr, Option.some_inj] at h
      subst h
      exact List.mem_cons_self _ _
    | some m' =>
      simp only [minByTime, hr] at h
      by_cases hle : b.timeQueued ≤ m'.timeQueued
      · rw [if_pos hle, Option.some_inj] at h
        subst h
        exact List.mem_cons_self _ _
      · rw [if_neg hle, Option.some_inj] at h
        subst h
        exact List.mem_cons_of_mem _ (minByTime_mem rest _ hr)

theorem minByTime_le : ∀ (l : List QBundle) (m : QBundle), minByTime l = some m →
    ∀ x ∈ l, m.timeQueued ≤ x.timeQueued
  | [], _, h => by simp [minByTime] at h
  | b :: rest, m, h => by
    cases hr : minByTime rest with
    | none =>
      have hnil := minByTime_eq_none rest hr
      subst hnil
      simp only [minByTime, Option.some_inj] at h
      subst h
      intro x hx
      rcases List.mem_cons.mp hx with rfl | hx
      · exact le_refl _
      · simp at hx
    | some m' =>
      simp only [minByTime, hr] at h
      have ihle := minByTime_le rest m' hr
      by_cases hle : b.timeQueued ≤ m'.timeQueued
      · rw [if_pos hle, Option.some_inj] at h
        subst h
        intro x hx
        rcases List.mem_cons.mp hx with rfl | hx
        · exact le_refl _
        · exact le_trans hle (ihle x hx)
      · rw [if_neg hle, Option.some_inj] at h
        subst h
        intro x hx
        rcases List.mem_cons.mp hx with rfl | hx
        · omega
        · exact ihle x hx

theorem minByTime_isSome : ∀ (l : List QBundle), l ≠ [] → (minByTime l).isSome = true
  | [], h => absurd rfl h
  | b :: rest, _ => by
    cases hr : minByTime rest with
    | none => simp [minByTime, hr]
    | some m' =>
      simp only [minByTime, hr]
      split <;> rfl

theorem activeCount_after_claim (pk : Nat) :
    ∀ (l : List QBundle), (∀ b ∈ l, isActiveStatus b.status = false) →
    activeCount (l.map (fun b => if b.pk = pk then { b with status := .processing } else b))
      = (l.filter (fun b => b.pk == pk)).length
  | [], _ => rfl
  | b :: rest, h => by
    have hb := h b (List.mem_cons_self _ _)
    have ih := activeCount_after_claim pk rest
      (fun x hx => h x (List.mem_cons_of_mem _ hx))
    by_cases hpk : b.pk = pk
    · simp only [List.map_cons, if_pos hpk, activeCount, List.filter_cons,
        beq_iff_eq, hpk, if_true, List.length_cons, ih]
      simp [isActiveStatus]
      omega
    · simp only [List.map_cons, if_neg hpk, activeCount, List.filter_cons,
        beq_iff_eq, hpk, if_false, ih, hb]
      simp

theorem filter_pk_length_le_one (pk : Nat) :
    ∀ (l : List QBundle), (l.map (fun b => b.pk)).Nodup →
    (l.filter (fun b => b.pk == pk)).length ≤ 1
  | [], _ => by simp
  | b :: rest, h => by
    rw [List.map_cons, List.nodup_cons] at h
    obtain ⟨hnotin, hrest⟩ := h
    by_cases hpk : b.pk = pk
    · have hnil : rest.filter (fun b => b.pk == pk) = [] := by
        rw [List.filter_eq_nil_iff]
        intro x hx
        intro hcon
        apply hnotin
        rw [List.mem_map]
        exact ⟨x, hx, by rw [beq_iff_eq] at hcon; rw [hcon, hpk]⟩
      simp [List.filter_cons, hpk, hnil]
    · have hpk2 : (b.pk == pk) = false := beq_false_of_ne hpk
      simp only [List.filter_cons, hpk2, Bool.false_eq_true, if_false]
      exact filter_pk_length_le_one pk rest hrest

/-- C3: queue admission dispatches nothing while any bundle is PROCESSING,
DRAFT or PUBLISHING; otherwise, when a QUEUED bundle exists, it dispatches a
QUEUED bundle whose queued timestamp is minimal among all QUEUED bundles;
and (for distinct primary keys) one admission pass preserves the
single-flight invariant that at most one bundle is in an active state. -/
theorem c3_queue_admission (bundles : List QBundle) :
    (bundles.any (fun b => isActiveStatus b.status) = true →
      process_queue bundles = none)
    ∧ (∀ pk, process_queue bundles = some pk →
        bundles.any (fun b => isActiveStatus b.status) = false
        ∧ ∃ b ∈ bundles, b.pk = pk ∧ b.status = .queued
            ∧ ∀ b' ∈ bundles, b'.status = .queued →
                b.timeQueued ≤ b'.timeQueued)
    ∧ (bundles.any (fun b => isActiveStatus b.status) = false →
        bundles.filter (fun b => b.status == .queued) ≠ [] →
        (process_queue bundles).isSome = true)
    ∧ ((bundles.map (fun b => b.pk)).Nodup →
        activeCount bundles ≤ 1 → activeCount (applyDispatch bundles) ≤ 1) := by
  refine ⟨?_, ?_, ?_, ?_⟩
  · intro h
    rw [process_queue, if_pos h]
  · intro pk hpq
    by_cases hact : bundles.any (fun b => isActiveStatus b.status) = true
    · rw [process_queue, if_pos hact] at hpq
      cases hpq
    · rw [Bool.not_eq_true] at hact
      refine ⟨hact, ?_⟩
      rw [process_queue, hact] at hpq
      simp only [Bool.false_eq_true, if_false] at hpq
      cases hm : minByTime (bundles.filter (fun b => b.status == .queued)) with
      | none =>
        rw [hm] at hpq
        cases hpq
      | some m =>
        rw [hm] at hpq
        cases hpq
        have hmem := minByTime_mem _ _ hm
        rw [List.mem_filter] at hmem
        refine ⟨m, hmem.1, rfl, by rw [← beq_iff_eq]; exact hmem.2, ?_⟩
        intro b' hb' hq'
        exact minByTime_le _ _ hm b'
          (List.mem_filter.mpr ⟨hb', by rw [beq_iff_eq]; exact hq'⟩)
  · intro hact hne
    rw [process_queue, hact]
    simp only [Bool.false_eq_true, if_false]
    cases hm : minByTime (bundles.filter (fun b => b.status == .queued)) with
    | none =>
      have := minByTime_isSome _ hne
      rw [hm] at this
      cases this
    | some m => rfl
  · intro hnodup hle
    cases hpq : process_queue bundles with
    | none =>
      rw [applyDispatch, hpq]
      exact hle
    | some pk =>
      by_cases hact : bundles.any (fun b => isActiveStatus b.status) = true
      · rw [process_queue, if_pos hact] at hpq
        cases hpq
      · rw [Bool.not_eq_true, List.any_eq_false] at hact
        rw [applyDispatch, hpq]
        rw [activeCount_after_claim pk bundles
          (fun b hb => by simpa using hact b hb)]
        exact filter_pk_length_le_one pk bundles hnodup

/-- C3 witness: two queued bundles and no active one — the earlier-queued one
(pk 2) is dispatched, and admission with an active bundle present dispatches
nothing while preserving the invariant. -/
theorem c3_witness :
    (let bs : List QBundle := [⟨1, .queued, 10⟩, ⟨2, .queued, 5⟩]
     let busy : List QBundle := [⟨1, .publishing, 0⟩, ⟨2, .queued, 5⟩]
     process_queue bs = some 2
     ∧ (busy.any (fun b => isActiveStatus b.status) = true ∧ process_queue busy = none)
     ∧ (∃ b ∈ bs, b.pk = 2 ∧ b.status = .queued
         ∧ ∀ b' ∈ bs, b'.status = .queued → b.timeQueued ≤ b'.timeQueued)
     ∧ ((bs.map (fun b => b.pk)).Nodup ∧ activeCount bs ≤ 1
         ∧ activeCount (applyDispatch bs) ≤ 1)) := by
  refine ⟨by decide, ⟨by decide, (c3_queue_admission _).1 (by decide)⟩, ?_, ?_⟩
  · exact ((c3_queue_admission _).2.1 2 (by decide)).2
  · exact ⟨by decide, by decide,
      (c3_queue_admission _).2.2.2 (by decide) (by decide)⟩

/-- C8: a processing run that creates zero ArticleChange and zero ImageChange
records never reaches DRAFT; and when staging itself completed (no duplicate
abort, no per-article failure), the empty outcome raises exactly the
nothing-changed error — a change-free bundle is never a silent success. -/
theorem c8_nothing_changed (store : Store) (docs : List Doc) (imgs : List ImageFile) :
    ((processBundle store docs imgs).articleChanges = [] →
      (processBundle store docs imgs).imageChanges = [] →
      (processBundle store docs imgs).finalStatus ≠ .draftS)
    ∧ (hasUrlDup docs = false → hasImgDup imgs = false →
      (processDocs store docs 0).ok = true →
      stagedArticleChanges store docs = [] →
      stagedImageChanges store imgs = [] →
      (processBundle store docs imgs).error = some .nothingChanged
        ∧ (processBundle store docs imgs).finalStatus = .processing) := by
  constructor
  · by_cases h1 : hasUrlDup docs = true
    · intro _ _
      simp [processBundle, h1]
    · rw [Bool.not_eq_true] at h1
      by_cases h2 : hasImgDup imgs = true
      · intro _ _
        simp [processBundle, h1, h2]
      · rw [Bool.not_eq_true] at h2
        by_cases h3 : (processDocs store docs 0).ok = true
        · by_cases h4 : ((stagedArticleChanges store docs).isEmpty
              && (stagedImageChanges store imgs).isEmpty) = true
          · intro _ _
            simp [processBundle, h1, h2, h3, h4]
          · intro ha hi
            exfalso
            have e1 : (processBundle store docs imgs).articleChanges
                = stagedArticleChanges store docs := by
              simp [processBundle, h1, h2, h3, h4]
            have e2 : (processBundle store docs imgs).imageChanges
                = stagedImageChanges store imgs := by
              simp [processBundle, h1, h2, h3, h4]
            rw [e1] at ha
            rw [e2] at hi
            exact h4 (by rw [ha, hi]; rfl)
        · rw [Bool.not_eq_true] at h3
          intro _ _
          simp [processBundle, h1, h2, h3]
  · intro h1 h2 h3 ha hi
    have h4 : ((stagedArticleChanges store docs).isEmpty
        && (stagedImageChanges store imgs).isEmpty) = true := by
      rw [ha, hi]
      rfl
    constructor <;> simp [processBundle, h1, h2, h3, h4]

/-- C8 witness: a bundle with no incoming documents or images against an
empty live state stages nothing, errors with nothing-changed and stays out
of DRAFT. -/
theorem c8_witness :
    (let store : Store := ⟨fun _ => [], fun _ => [], [], [], "draft/"⟩
     (processBundle store [] []).error = some .nothingChanged
     ∧ (processBundle store [] []).finalStatus = .processing
     ∧ (processBundle store [] []).finalStatus ≠ .draftS) := by
  refine ⟨?_, ?_, ?_⟩
  · exact ((c8_nothing_changed _ [] []).2 (by decide) (by decide) (by decide)
      (by decide) (by decide)).1
  · exact ((c8_nothing_changed _ [] []).2 (by decide) (by decide) (by decide)
      (by decide) (by decide)).2
  · exact (c8_nothing_changed _ [] []).1 (by decide) (by decide)

theorem is_complete_iff (st : BundleStatus) :
    is_complete st = true ↔ st = .published ∨ st = .errorS := by
  cases st <;> simp [is_complete]

/-- C6: a webhook whose payload carries all read fields is never fatal, and
is accepted exactly when the event is a successful publish-complete
notification and the bundle for its source id is absent or terminal
(PUBLISHED or ERROR); acceptance leaves the bundle QUEUED and triggers queue
admission, rejection changes no bundle state and triggers nothing. -/
theorem c6_webhook_admission (e r u rid : String) (existing : Option BundleStatus) :
    ∃ o, process_webhook ⟨some e, some r, some u, some rid⟩ existing = .ok o
    ∧ (o.whStatus = .accepted ↔
        (e = "dita-ot-publish-complete" ∧ r = "success"
          ∧ (existing = none ∨ existing = some .published
              ∨ existing = some .errorS)))
    ∧ (o.whStatus = .accepted →
        o.bundleStatus = some .queued ∧ o.queueTriggered = true)
    ∧ (o.whStatus = .rejected →
        o.bundleStatus = existing ∧ o.queueTriggered = false) := by
  by_cases he : e = "dita-ot-publish-complete"
  · by_cases hr : r = "success"
    · cases existing with
      | none =>
        refine ⟨(⟨.accepted, some .queued, true⟩ : WebhookOutcome),
          by simp [process_webhook, he, hr], ?_, ?_, ?_⟩
        · simp [he, hr]
        · intro _
          exact ⟨rfl, rfl⟩
        · intro h
          cases h
      | some st =>
        by_cases hc : is_complete st = true
        · rcases (is_complete_iff st).mp hc with hst | hst
          · refine ⟨(⟨.accepted, some .queued, true⟩ : WebhookOutcome),
              by simp [process_webhook, he, hr, hc], ?_, ?_, ?_⟩
            · simp [he, hr, hst]
            · intro _
              exact ⟨rfl, rfl⟩
            · intro h
              cases h
          · refine ⟨(⟨.accepted, some .queued, true⟩ : WebhookOutcome),
              by simp [process_webhook, he, hr, hc], ?_, ?_, ?_⟩
            · simp [he, hr, hst]
            · intro _
              exact ⟨rfl, rfl⟩
            · intro h
              cases h
        · rw [Bool.not_eq_true] at hc
          refine ⟨(⟨.rejected, some st, false⟩ : WebhookOutcome),
            by simp [process_webhook, he, hr, hc], ?_, ?_, ?_⟩
          · constructor
            · intro h
              cases h
            · rintro ⟨_, _, hst | hst | hst⟩ <;> cases hst <;>
                simp [is_complete] at hc
          · intro h
            cases h
          · intro _
            exact ⟨rfl, rfl⟩
    · refine ⟨(⟨.rejected, existing, false⟩ : WebhookOutcome),
        by simp [process_webhook, he, hr], ?_, ?_, ?_⟩
      · simp [hr]
      · intro h
        cases h
      · intro _
        exact ⟨rfl, rfl⟩
  · refine ⟨(⟨.rejected, existing, false⟩ : WebhookOutcome),
      by simp [process_webhook, he], ?_, ?_, ?_⟩
    · simp [he]
    · intro h
      cases h
    · intro _
      exact ⟨rfl, rfl⟩

/-- C6 witness: concrete payloads — a successful publish-complete for a fresh
id is accepted and queued; the same notification while the bundle is
PROCESSING is rejected without touching it. -/
theorem c6_witness :
    (∃ o, process_webhook ⟨some "dita-ot-publish-complete", some "success",
        some "u1", some "r1"⟩ none = .ok o ∧ o.whStatus = .accepted
        ∧ o.bundleStatus = some .queued ∧ o.queueTriggered = true)
    ∧ (∃ o, process_webhook ⟨some "dita-ot-publish-complete", some "success",
        some "u1", some "r1"⟩ (some .processing) = .ok o ∧ o.whStatus = .rejected
        ∧ o.bundleStatus = some .processing ∧ o.queueTriggered = false) := by
  constructor
  · obtain ⟨o, h1, h2, h3, _⟩ :=
      c6_webhook_admission "dita-ot-publish-complete" "success" "u1" "r1" none
    have hacc : o.whStatus = .accepted := h2.mpr ⟨rfl, rfl, Or.inl rfl⟩
    obtain ⟨hb, hq⟩ := h3 hacc
    exact ⟨o, h1, hacc, hb, hq⟩
  · obtain ⟨o, h1, h2, _, h4⟩ :=
      c6_webhook_admission "dita-ot-publish-complete" "success" "u1" "r1"
        (some .processing)
    have hrej : o.whStatus = .rejected := by
      cases ho : o.whStatus with
      | accepted =>
        rcases (h2.mp ho).2.2 with h | h | h <;> cases h
      | rejected => rfl
    obtain ⟨hb, hq⟩ := h4 hrej
    exact ⟨o, h1, hrej, hb, hq⟩

/-- C9 counterexample: the empty JSON object has neither required field; the
handler raises an uncaught KeyError instead of recording a rejection — the
claim that a malformed payload is never fatal is false. -/
theorem c9_counterexample :
    process_webhook ⟨none, none, none, none⟩ none = .error .keyError := rfl

/-- C9 amended: a payload whose present fields fail the checks is rejected
with the rejection recorded (wrong event id rejects without reading further
fields, a non-success result rejects), but a payload missing a field the
handler reads — event id always, publish-result once the event id matches,
output-uuid / resource-id on the success path — raises an uncaught KeyError
rather than a recorded rejection. -/
theorem c9_malformed_payload (p : Payload) (existing : Option BundleStatus) :
    (p.eventId = none → process_webhook p existing = .error .keyError)
    ∧ (∀ e, p.eventId = some e → e ≠ "dita-ot-publish-complete" →
        process_webhook p existing =
          .ok { whStatus := .rejected, bundleStatus := existing,
                queueTriggered := false })
    ∧ (p.eventId = some "dita-ot-publish-complete" → p.publishResult = none →
        process_webhook p existing = .error .keyError)
    ∧ (∀ r, p.eventId = some "dita-ot-publish-complete" →
        p.publishResult = some r → r ≠ "success" →
        process_webhook p existing =
          .ok { whStatus := .rejected, bundleStatus := existing,
                queueTriggered := false })
    ∧ (p.eventId = some "dita-ot-publish-complete" →
        p.publishResult = some "success" → p.outputUuid = none →
        process_webhook p existing = .error .keyError)
    ∧ (∀ u, p.eventId = some "dita-ot-publish-complete" →
        p.publishResult = some "success" → p.outputUuid = some u →
        p.resourceId = none →
        process_webhook p existing = .error .keyError) := by
  refine ⟨?_, ?_, ?_, ?_, ?_, ?_⟩
  · intro h
    simp [process_webhook, h]
  · intro e he hne
    simp [process_webhook, he, hne]
  · intro he hr
    simp [process_webhook, he, hr]
  · intro r he hr hne
    simp [process_webhook, he, hr, hne]
  · intro he hr hu
    simp [process_webhook, he, hr, hu]
  · intro u he hr hu hrid
    simp [process_webhook, he, hr, hu, hrid]

/-- C9 amended witness: concrete payloads — wrong event id is a recorded
rejection; a matching event id with the publish-result key missing is an
uncaught KeyError. -/
theorem c9_witness :
    process_webhook ⟨some "other-event", some "success", none, none⟩ none =
      .ok { whStatus := .rejected, bundleStatus := none, queueTriggered := false }
    ∧ process_webhook ⟨some "dita-ot-publish-complete", none, none, none⟩ none =
      .error .keyError :=
  ⟨(c9_malformed_payload ⟨some "other-event", some "success", none, none⟩ none).2.1
      "other-event" rfl (by decide),
   (c9_malformed_payload ⟨some "dita-ot-publish-complete", none, none, none⟩ none).2.2.1
      rfl rfl⟩

/-- C4 counterexample: a bundle with both a slug collision and an image
basename collision aborts on the slug check alone — the raised error carries
only the url-name report, so it does not enumerate every colliding
slug/basename as the claim requires. -/
theorem c4_counterexample :
    (let f : ArticleFields := ⟨"t", "s", "b", true, true, true, "a", "ao"⟩
     let docs : List Doc := [⟨"a.html", "FAQ", f, []⟩, ⟨"b.html", "faq", f, []⟩]
     let imgs : List ImageFile :=
       [⟨"/x/logo.png", "logo.png"⟩, ⟨"/y/LOGO.png", "LOGO.png"⟩]
     let store : Store := ⟨fun _ => [], fun _ => [], [], [], "draft/"⟩
     hasImgDup imgs = true
     ∧ (processBundle store docs imgs).error =
         some (.duplicateUrls [("faq", ["a.html", "b.html"])])) :=
  ⟨by decide, by decide⟩

/-- C4 amended: duplicate detection aborts before any store mutation and
before any change record exists, reporting one category at a time — a slug
collision aborts with the full url-name report (image collisions, if also
present, are not included), and only a collision-free url map lets an image
collision abort with the full basename report.  Within each category
detection runs to completion: every key with two or more contributing
sources appears in that category's report with all of its source paths, and
the report is deterministically sorted (keys in order, each path list in
order). -/
theorem c4_duplicate_detection (store : Store) (docs : List Doc) (imgs : List ImageFile) :
    (hasUrlDup docs = true →
      processBundle store docs imgs =
        { effects := [], articleChanges := [], imageChanges := [],
          error := some (.duplicateUrls (collisionReport (urlMapOf docs))),
          finalStatus := .processing })
    ∧ (hasUrlDup docs = false → hasImgDup imgs = true →
        processBundle store docs imgs =
          { effects := [], articleChanges := [], imageChanges := [],
            error := some (.duplicateImages (collisionReport (imgMapOf imgs))),
            finalStatus := .processing })
    ∧ (∀ slug, 2 ≤ (docs.filter (fun d => strLower d.urlName == slug)).length →
        (slug, List.insertionSort strLeR
            ((docs.filter (fun d => strLower d.urlName == slug)).map
              (fun d => d.path)))
          ∈ collisionReport (urlMapOf docs))
    ∧ (∀ base, 2 ≤ (imgs.filter (fun i => strLower i.basename == base)).length →
        (base, List.insertionSort strLeR
            ((imgs.filter (fun i => strLower i.basename == base)).map
              (fun i => i.path)))
          ∈ collisionReport (imgMapOf imgs))
    ∧ (∀ m : List (String × List String),
        ((collisionReport m).map Prod.fst).Pairwise strLeR
        ∧ ∀ entry ∈ collisionReport m, entry.2.Pairwise strLeR) := by
  refine ⟨?_, ?_, ?_, ?_, ?_⟩
  · intro h
    simp [processBundle, h]
  · intro h1 h2
    simp [processBundle, h1, h2]
  · intro slug hlen
    have hlk : lookupMap (urlMapOf docs) slug =
        (docs.filter (fun d => strLower d.urlName == slug)).map (fun d => d.path) :=
      lookupMap_buildMap _ _ _ _
    have hne : lookupMap (urlMapOf docs) slug ≠ [] := by
      apply List.ne_nil_of_length_pos
      rw [hlk, List.length_map]
      omega
    have hmem := mem_of_lookupMap_ne_nil _ _ hne
    rw [collisionReport, List.mem_insertionSort]
    refine List.mem_map.mpr ⟨(slug, lookupMap (urlMapOf docs) slug),
      List.mem_filter.mpr ⟨hmem, ?_⟩, ?_⟩
    · have : 1 < (lookupMap (urlMapOf docs) slug).length := by
        rw [hlk, List.length_map]
        omega
      simpa using this
    · rw [hlk]
  · intro base hlen
    have hlk : lookupMap (imgMapOf imgs) base =
        (imgs.filter (fun i => strLower i.basename == base)).map (fun i => i.path) :=
      lookupMap_buildMap _ _ _ _
    have hne : lookupMap (imgMapOf imgs) base ≠ [] := by
      apply List.ne_nil_of_length_pos
      rw [hlk, List.length_map]
      omega
    have hmem := mem_of_lookupMap_ne_nil _ _ hne
    rw [collisionReport, List.mem_insertionSort]
    refine List.mem_map.mpr ⟨(base, lookupMap (imgMapOf imgs) base),
      List.mem_filter.mpr ⟨hmem, ?_⟩, ?_⟩
    · have : 1 < (lookupMap (imgMapOf imgs) base).length := by
        rw [hlk, List.length_map]
        omega
      simpa using this
    · rw [hlk]
  · intro m
    constructor
    · have hs := List.sorted_insertionSort entryLe
        ((m.filter (fun kv => 1 < kv.2.length)).map
          (fun kv => (kv.1, List.insertionSort strLeR kv.2)))
      rw [collisionReport]
      exact List.Pairwise.map _ (fun a b hab => hab) hs
    · intro entry hentry
      rw [collisionReport, List.mem_insertionSort] at hentry
      obtain ⟨kv, _, rfl⟩ := List.mem_map.mp hentry
      exact List.sorted_insertionSort strLeR kv.2

/-- C4 amended witness: a concrete two-way slug collision (and, separately,
an image collision with a clean url map) — the abort outcome carries no
effects or records, and the colliding key appears in the report with both
paths. -/
theorem c4_witness :
    (let f : ArticleFields := ⟨"t", "s", "b", true, true, true, "a", "ao"⟩
     let docs : List Doc := [⟨"b.html", "FAQ", f, []⟩, ⟨"a.html", "faq", f, []⟩]
     let imgs : List ImageFile :=
       [⟨"/x/logo.png", "logo.png"⟩, ⟨"/y/LOGO.png", "LOGO.png"⟩]
     let store : Store := ⟨fun _ => [], fun _ => [], [], [], "draft/"⟩
     processBundle store docs imgs =
       { effects := [], articleChanges := [], imageChanges := [],
         error := some (.duplicateUrls (collisionReport (urlMapOf docs))),
         finalStatus := .processing }
     ∧ processBundle store [] imgs =
       { effects := [], articleChanges := [], imageChanges := [],
         error := some (.duplicateImages (collisionReport (imgMapOf imgs))),
         finalStatus := .processing }
     ∧ ("faq", List.insertionSort strLeR
          ((docs.filter (fun d => strLower d.urlName == "faq")).map
            (fun d => d.path)))
         ∈ collisionReport (urlMapOf docs)
     ∧ ((collisionReport (urlMapOf docs)).map Prod.fst).Pairwise strLeR) := by
  refine ⟨?_, ?_, ?_, ?_⟩
  · exact (c4_duplicate_detection _ _ _).1 (by decide)
  · exact (c4_duplicate_detection _ [] _).2.1 (by decide) (by decide)
  · exact (c4_duplicate_detection
      (⟨fun _ => [], fun _ => [], [], [], "draft/"⟩ : Store) _
      [⟨"/x/logo.png", "logo.png"⟩, ⟨"/y/LOGO.png", "LOGO.png"⟩]).2.2.1
      "faq" (by decide)
  · exact ((c4_duplicate_detection
      (⟨fun _ => [], fun _ => [], [], [], "draft/"⟩ : Store)
      [⟨"b.html", "FAQ", ⟨"t", "s", "b", true, true, true, "a", "ao"⟩, []⟩,
       ⟨"a.html", "faq", ⟨"t", "s", "b", true, true, true, "a", "ao"⟩, []⟩]
      []).2.2.2.2 (urlMapOf
        [⟨"b.html", "FAQ", ⟨"t", "s", "b", true, true, true, "a", "ao"⟩, []⟩,
         ⟨"a.html", "faq", ⟨"t", "s", "b", true, true, true, "a", "ao"⟩, []⟩])).1

end Sfdoc
